import Mathlib

/-!
Verification development for the companieshouse go-session-handler session
store (package `state`, with its `encoding` helpers).

Modelling conventions, used throughout:

* Go strings are byte strings; they are modelled as `List Nat` (named `GoStr`)
  with every entry below 256.  Length, slicing and concatenation of Go strings
  are byte-wise, exactly as `len`, `s[a:b]` and `+` on the Go side.
* Machine integers (`uint64`, `uint32`, ...) are modelled as `Nat` with
  explicit `% 2 ^ w` where the Go code can overflow or truncate.
* The ambient effects of the code (wall clock `time.Now`, the secure random
  source `crypto/rand`, the SHA-1 digest, and the error behaviour of the Redis
  transport) are supplied by an explicit environment `Env`.  The Redis keyspace
  and the sequence of cache commands issued are threaded through a `World`
  value, so that frame properties ("exactly one delete was issued") are
  statable.
* Fallible Go functions returning `error` are modelled with `Option`/`Except`;
  a Go panic (failed type assertion) is a distinguished outcome constructor.
-/

/-- Byte strings: the model of Go `string` and `[]byte` values. -/
abbrev GoStr := List Nat

/-- Bytes of an ASCII Lean string literal, used to name the concrete Go string
literals of the source (`"expires"`, `"last_access"`, error texts, ...). -/
def strBytes (s : String) : GoStr := s.data.map Char.toNat

/-! ## Base64 (encoding/base64, StdEncoding)

`EncodeBase64` and `DecodeBase64` in `src/encoding/encoding.go` delegate to
`base64.StdEncoding`; the standard padded RFC 4648 alphabet is modelled here
byte for byte. -/

/-- Character (as a byte) of the standard base64 alphabet for a sextet. -/
def b64Char (n : Nat) : Nat :=
  if n < 26 then 65 + n
  else if n < 52 then 97 + (n - 26)
  else if n < 62 then 48 + (n - 52)
  else if n = 62 then 43
  else 47

/-- Inverse of the standard base64 alphabet: sextet of a character byte. -/
def b64Index (c : Nat) : Option Nat :=
  if 65 ≤ c ∧ c ≤ 90 then some (c - 65)
  else if 97 ≤ c ∧ c ≤ 122 then some (26 + (c - 97))
  else if 48 ≤ c ∧ c ≤ 57 then some (52 + (c - 48))
  else if c = 43 then some 62
  else if c = 47 then some 63
  else none

/-- Model of `encoding.EncodeBase64` (Go `base64.StdEncoding.EncodeToString`):
three input bytes become four alphabet bytes, a short tail is padded with
`=` (byte 61). -/
def EncodeBase64 : GoStr → GoStr
  | [] => []
  | [b1] => [b64Char (b1 / 4), b64Char (b1 % 4 * 16), 61, 61]
  | [b1, b2] => [b64Char (b1 / 4), b64Char (b1 % 4 * 16 + b2 / 16), b64Char (b2 % 16 * 4), 61]
  | b1 :: b2 :: b3 :: rest =>
    b64Char (b1 / 4) :: b64Char (b1 % 4 * 16 + b2 / 16) ::
      b64Char (b2 % 16 * 4 + b3 / 64) :: b64Char (b3 % 64) :: EncodeBase64 rest

/-- Model of `encoding.DecodeBase64` (Go `base64.StdEncoding.DecodeString`):
`none` models a non-nil Go decode error (bad length, bad character, or
padding anywhere but at the very end). -/
def DecodeBase64 : GoStr → Option GoStr
  | [] => some []
  | c1 :: c2 :: c3 :: c4 :: rest =>
    match b64Index c1, b64Index c2 with
    | some n1, some n2 =>
      if c3 = 61 then
        if c4 = 61 ∧ rest = [] then some [n1 * 4 + n2 / 16] else none
      else
        match b64Index c3 with
        | some n3 =>
          if c4 = 61 then
            if rest = [] then some [n1 * 4 + n2 / 16, n2 % 16 * 16 + n3 / 4] else none
          else
            match b64Index c4 with
            | some n4 =>
              (DecodeBase64 rest).map
                (fun tail => (n1 * 4 + n2 / 16) :: (n2 % 16 * 16 + n3 / 4) ::
                  (n3 % 4 * 64 + n4) :: tail)
            | none => none
        | none => none
    | _, _ => none
  | _ => none

theorem b64Index_b64Char (n : Nat) (h : n < 64) : b64Index (b64Char n) = some n := by
  unfold b64Char b64Index
  split_ifs <;> (try simp only [Option.some.injEq]) <;> omega

theorem b64Char_ne_pad (n : Nat) (h : n < 64) : b64Char n ≠ 61 := by
  unfold b64Char
  split_ifs <;> omega

/-- Round trip of the base64 layer: decoding an encoded byte string recovers
it exactly (spec section 8, first testable property). -/
theorem DecodeBase64_EncodeBase64 (bs : GoStr) (h : ∀ b ∈ bs, b < 256) :
    DecodeBase64 (EncodeBase64 bs) = some bs := by
  induction bs using EncodeBase64.induct with
  | case1 => rfl
  | case2 b1 =>
    have hb1 : b1 < 256 := h b1 (by simp)
    have e1 : b64Index (b64Char (b1 / 4)) = some (b1 / 4) := b64Index_b64Char _ (by omega)
    have e2 : b64Index (b64Char (b1 % 4 * 16)) = some (b1 % 4 * 16) :=
      b64Index_b64Char _ (by omega)
    simp only [EncodeBase64, DecodeBase64, e1, e2, and_self, if_true, if_pos,
      Option.some.injEq, List.cons.injEq, and_true]
    omega
  | case3 b1 b2 =>
    have hb1 : b1 < 256 := h b1 (by simp)
    have hb2 : b2 < 256 := h b2 (by simp)
    have e1 : b64Index (b64Char (b1 / 4)) = some (b1 / 4) := b64Index_b64Char _ (by omega)
    have e2 : b64Index (b64Char (b1 % 4 * 16 + b2 / 16)) = some (b1 % 4 * 16 + b2 / 16) :=
      b64Index_b64Char _ (by omega)
    have ne3 : ¬ b64Char (b2 % 16 * 4) = 61 := b64Char_ne_pad _ (by omega)
    have e3 : b64Index (b64Char (b2 % 16 * 4)) = some (b2 % 16 * 4) :=
      b64Index_b64Char _ (by omega)
    simp only [EncodeBase64, DecodeBase64, e1, e2, ne3, if_false, e3, if_true, if_pos,
      Option.some.injEq, List.cons.injEq, and_true]
    omega
  | case4 b1 b2 b3 rest ih =>
    have hb1 : b1 < 256 := h b1 (by simp)
    have hb2 : b2 < 256 := h b2 (by simp)
    have hb3 : b3 < 256 := h b3 (by simp)
    have hrest : ∀ b ∈ rest, b < 256 := fun b hb => h b (by simp [hb])
    have e1 : b64Index (b64Char (b1 / 4)) = some (b1 / 4) := b64Index_b64Char _ (by omega)
    have e2 : b64Index (b64Char (b1 % 4 * 16 + b2 / 16)) = some (b1 % 4 * 16 + b2 / 16) :=
      b64Index_b64Char _ (by omega)
    have ne3 : ¬ b64Char (b2 % 16 * 4 + b3 / 64) = 61 := b64Char_ne_pad _ (by omega)
    have e3 : b64Index (b64Char (b2 % 16 * 4 + b3 / 64)) = some (b2 % 16 * 4 + b3 / 64) :=
      b64Index_b64Char _ (by omega)
    have ne4 : ¬ b64Char (b3 % 64) = 61 := b64Char_ne_pad _ (by omega)
    have e4 : b64Index (b64Char (b3 % 64)) = some (b3 % 64) := b64Index_b64Char _ (by omega)
    simp only [EncodeBase64, DecodeBase64, e1, e2, ne3, if_false, e3, ne4, e4, ih hrest,
      Option.map_some', Option.some.injEq, List.cons.injEq, and_true]
    omega

/-- Length of a base64 encoding: four bytes for every started triple. -/
theorem EncodeBase64_length (bs : GoStr) :
    (EncodeBase64 bs).length = (bs.length + 2) / 3 * 4 := by
  induction bs using EncodeBase64.induct <;> simp [EncodeBase64, *] <;> omega

/-! ## MessagePack (github.com/vmihailenco/msgpack, as pinned by the repo)

`EncodeMsgPack`/`DecodeMsgPack` in `src/encoding/encoding.go` are thin
wrappers over the pinned msgpack library, which is outside this repository.
The wire format below is the msgpack format specification restricted to the
value universe the session payload schema uses (nil, raw strings, unsigned
and signed integers of the four fixed widths, nested string-keyed maps); the
pinned library maps each Go static type to its width-faithful format code
(`uint32` to `0xce`, `int8` to `0xd0`, ...) and decodes each format code back
to the same Go type, which is what the repository relies on when it asserts
`.(uint32)` on decoded fields.  Go `map[string]interface{}` values are
modelled as association lists: one iteration order of the Go map. -/

/-- Big-endian bytes of a 16-bit value. -/
def be2 (n : Nat) : GoStr := [n / 2 ^ 8 % 256, n % 256]

/-- Big-endian bytes of a 32-bit value. -/
def be4 (n : Nat) : GoStr :=
  [n / 2 ^ 24 % 256, n / 2 ^ 16 % 256, n / 2 ^ 8 % 256, n % 256]

/-- Big-endian bytes of a 64-bit value. -/
def be8 (n : Nat) : GoStr :=
  [n / 2 ^ 56 % 256, n / 2 ^ 48 % 256, n / 2 ^ 40 % 256, n / 2 ^ 32 % 256,
   n / 2 ^ 24 % 256, n / 2 ^ 16 % 256, n / 2 ^ 8 % 256, n % 256]

/-- Take exactly `n` bytes off the front of a byte string. -/
def readN : Nat → GoStr → Option (GoStr × GoStr)
  | 0, bs => some ([], bs)
  | _ + 1, [] => none
  | n + 1, b :: bs => (readN n bs).map (fun p => (b :: p.1, p.2))

theorem readN_append (xs rest : GoStr) : readN xs.length (xs ++ rest) = some (xs, rest) := by
  induction xs with
  | nil => rfl
  | cons x xs ih => simp [readN, ih]

/-- Two's-complement reading of an unsigned value: `half = 2 ^ (w - 1)`,
`full = 2 ^ w`. -/
def twosVal (half full v : Nat) : Int :=
  if v < half then (v : Int) else (v : Int) - full

/-- msgpack str family header for a byte length (fixstr / str8 / str16 / str32). -/
def strHeader (l : Nat) : GoStr :=
  if l < 32 then [0xa0 + l]
  else if l < 2 ^ 8 then [0xd9, l]
  else if l < 2 ^ 16 then 0xda :: be2 l
  else 0xdb :: be4 l

/-- msgpack map family header for an entry count (fixmap / map16 / map32). -/
def mapHeader (l : Nat) : GoStr :=
  if l < 16 then [0x80 + l]
  else if l < 2 ^ 16 then 0xde :: be2 l
  else 0xdf :: be4 l

/-- Parse one msgpack str value off the front of a byte string. -/
def decodeStr : GoStr → Option (GoStr × GoStr)
  | [] => none
  | b :: rest =>
    if 0xa0 ≤ b ∧ b ≤ 0xbf then readN (b - 0xa0) rest
    else if b = 0xd9 then
      match rest with
      | l :: r => readN l r
      | [] => none
    else if b = 0xda then
      match rest with
      | a :: b2 :: r => readN (a * 256 + b2) r
      | _ => none
    else if b = 0xdb then
      match rest with
      | a :: b2 :: c :: d :: r => readN (((a * 256 + b2) * 256 + c) * 256 + d) r
      | _ => none
    else none

theorem decodeStr_encode (s rest : GoStr) (h : s.length < 2 ^ 32) :
    decodeStr (strHeader s.length ++ s ++ rest) = some (s, rest) := by
  unfold strHeader
  split_ifs with h1 h2 h3
  · simp only [List.cons_append, List.nil_append, decodeStr, List.append_assoc]
    rw [if_pos (by omega)]
    have e : 0xa0 + s.length - 0xa0 = s.length := by omega
    rw [e, readN_append]
  · simp only [List.cons_append, List.nil_append, decodeStr, List.append_assoc]
    rw [if_neg (by omega), if_pos trivial]
    exact readN_append s rest
  · simp only [be2, List.cons_append, List.nil_append, decodeStr, List.append_assoc]
    rw [if_neg (by omega), if_neg (by omega), if_pos trivial]
    have e : s.length / 2 ^ 8 % 256 * 256 + s.length % 256 = s.length := by omega
    rw [e]
    exact readN_append s rest
  · simp only [be4, List.cons_append, List.nil_append, decodeStr, List.append_assoc]
    rw [if_neg (by omega), if_neg (by omega), if_neg (by omega), if_pos trivial]
    have e : ((s.length / 2 ^ 24 % 256 * 256 + s.length / 2 ^ 16 % 256) * 256 +
        s.length / 2 ^ 8 % 256) * 256 + s.length % 256 = s.length := by omega
    rw [e]
    exact readN_append s rest

/-- Universe of payload values: the Go `interface{}` values the session
schema stores (nil, byte strings, the four unsigned and four signed integer
widths, nested string-keyed maps). -/
inductive SVal where
  | nil
  | str (s : GoStr)
  | u8 (n : Nat)
  | u16 (n : Nat)
  | u32 (n : Nat)
  | u64 (n : Nat)
  | i8 (n : Int)
  | i16 (n : Int)
  | i32 (n : Int)
  | i64 (n : Int)
  | map (m : List (GoStr × SVal))

/-- Model of Go `map[string]interface{}` session data (one iteration order). -/
abbrev SessionMap := List (GoStr × SVal)

mutual

/-- msgpack encoding of one payload value, width-faithful per Go static type. -/
def encodeVal : SVal → GoStr
  | .nil => [0xc0]
  | .str s => strHeader s.length ++ s
  | .u8 n => [0xcc, n % 256]
  | .u16 n => 0xcd :: be2 n
  | .u32 n => 0xce :: be4 n
  | .u64 n => 0xcf :: be8 n
  | .i8 n => [0xd0, (n % 2 ^ 8).toNat]
  | .i16 n => 0xd1 :: be2 (n % 2 ^ 16).toNat
  | .i32 n => 0xd2 :: be4 (n % 2 ^ 32).toNat
  | .i64 n => 0xd3 :: be8 (n % 2 ^ 64).toNat
  | .map m => mapHeader m.length ++ encodeEntries m

/-- msgpack encoding of map entries, keys first, in list order. -/
def encodeEntries : SessionMap → GoStr
  | [] => []
  | (k, v) :: rest => strHeader k.length ++ k ++ encodeVal v ++ encodeEntries rest

end

mutual

/-- Parse one msgpack value (fuel-indexed, fuel decreases on every step). -/
def decodeVal : Nat → GoStr → Option (SVal × GoStr)
  | 0, _ => none
  | _ + 1, [] => none
  | f + 1, b :: rest =>
    if b = 0xc0 then some (.nil, rest)
    else if (0xa0 ≤ b ∧ b ≤ 0xbf) ∨ b = 0xd9 ∨ b = 0xda ∨ b = 0xdb then
      (decodeStr (b :: rest)).map (fun p => (SVal.str p.1, p.2))
    else if b = 0xcc then
      match rest with
      | x :: r => some (.u8 x, r)
      | [] => none
    else if b = 0xcd then
      match rest with
      | a :: b2 :: r => some (.u16 (a * 256 + b2), r)
      | _ => none
    else if b = 0xce then
      match rest with
      | a :: b2 :: c :: d :: r => some (.u32 (((a * 256 + b2) * 256 + c) * 256 + d), r)
      | _ => none
    else if b = 0xcf then
      match rest with
      | a :: b2 :: c :: d :: e :: f2 :: g :: h2 :: r =>
        some (.u64 (((((((a * 256 + b2) * 256 + c) * 256 + d) * 256 + e) * 256 + f2) *
          256 + g) * 256 + h2), r)
      | _ => none
    else if b = 0xd0 then
      match rest with
      | x :: r => some (.i8 (twosVal (2 ^ 7) (2 ^ 8) x), r)
      | [] => none
    else if b = 0xd1 then
      match rest with
      | a :: b2 :: r => some (.i16 (twosVal (2 ^ 15) (2 ^ 16) (a * 256 + b2)), r)
      | _ => none
    else if b = 0xd2 then
      match rest with
      | a :: b2 :: c :: d :: r =>
        some (.i32 (twosVal (2 ^ 31) (2 ^ 32) (((a * 256 + b2) * 256 + c) * 256 + d)), r)
      | _ => none
    else if b = 0xd3 then
      match rest with
      | a :: b2 :: c :: d :: e :: f2 :: g :: h2 :: r =>
        some (.i64 (twosVal (2 ^ 63) (2 ^ 64) (((((((a * 256 + b2) * 256 + c) * 256 + d) *
          256 + e) * 256 + f2) * 256 + g) * 256 + h2)), r)
      | _ => none
    else if 0x80 ≤ b ∧ b ≤ 0x8f then
      (decodeEntries f (b - 0x80) rest).map (fun p => (SVal.map p.1, p.2))
    else if b = 0xde then
      match rest with
      | a :: b2 :: r => (decodeEntries f (a * 256 + b2) r).map (fun p => (SVal.map p.1, p.2))
      | _ => none
    else if b = 0xdf then
      match rest with
      | a :: b2 :: c :: d :: r =>
        (decodeEntries f (((a * 256 + b2) * 256 + c) * 256 + d) r).map
          (fun p => (SVal.map p.1, p.2))
      | _ => none
    else none

/-- Parse `n` msgpack map entries (string key, then value), fuel-indexed. -/
def decodeEntries : Nat → Nat → GoStr → Option (SessionMap × GoStr)
  | 0, _, _ => none
  | _ + 1, 0, bs => some ([], bs)
  | f + 1, n + 1, bs =>
    match decodeStr bs with
    | none => none
    | some (k, r1) =>
      match decodeVal f r1 with
      | none => none
      | some (v, r2) =>
        (decodeEntries f n r2).map (fun p => ((k, v) :: p.1, p.2))

end

mutual

/-- Well-formedness of a payload value: byte entries are bytes and every
integer is in range for its Go type. -/
def valWF : SVal → Bool
  | .nil => true
  | .str s => decide (s.length < 2 ^ 32) && s.all (fun b => decide (b < 256))
  | .u8 n => decide (n < 2 ^ 8)
  | .u16 n => decide (n < 2 ^ 16)
  | .u32 n => decide (n < 2 ^ 32)
  | .u64 n => decide (n < 2 ^ 64)
  | .i8 n => decide (-(2 ^ 7) ≤ n ∧ n < 2 ^ 7)
  | .i16 n => decide (-(2 ^ 15) ≤ n ∧ n < 2 ^ 15)
  | .i32 n => decide (-(2 ^ 31) ≤ n ∧ n < 2 ^ 31)
  | .i64 n => decide (-(2 ^ 63) ≤ n ∧ n < 2 ^ 63)
  | .map m => decide (m.length < 2 ^ 32) && entriesWF m

/-- Well-formedness of map entries. -/
def entriesWF : SessionMap → Bool
  | [] => true
  | (k, v) :: rest =>
    (decide (k.length < 2 ^ 32) && k.all (fun b => decide (b < 256))) &&
      (valWF v && entriesWF rest)

end

mutual

/-- Fuel needed by `decodeVal` to parse the encoding of a value. -/
def sizeVal : SVal → Nat
  | .map m => 1 + sizeEntries m
  | _ => 1

/-- Fuel needed by `decodeEntries` to parse the encoding of map entries. -/
def sizeEntries : SessionMap → Nat
  | [] => 1
  | (_, v) :: rest => 1 + max (sizeVal v) (sizeEntries rest)

end

theorem sizeVal_pos (v : SVal) : 1 ≤ sizeVal v := by
  cases v <;> simp [sizeVal]

theorem sizeEntries_pos (m : SessionMap) : 1 ≤ sizeEntries m := by
  cases m with
  | nil => simp [sizeEntries]
  | cons kv rest => obtain ⟨k, v⟩ := kv; simp [sizeEntries]


set_option maxRecDepth 8000
set_option maxHeartbeats 1600000

theorem decodeVal_strCode (f b : Nat) (rest : GoStr)
    (hb : (0xa0 ≤ b ∧ b ≤ 0xbf) ∨ b = 0xd9 ∨ b = 0xda ∨ b = 0xdb) :
    decodeVal (f + 1) (b :: rest) =
      (decodeStr (b :: rest)).map (fun p => (SVal.str p.1, p.2)) := by
  simp only [decodeVal]
  rw [if_neg (by omega), if_pos hb]

theorem decodeVal_str (f : Nat) (s rest : GoStr) (h : s.length < 2 ^ 32) :
    decodeVal (f + 1) (strHeader s.length ++ s ++ rest) = some (.str s, rest) := by
  have key := decodeStr_encode s rest h
  have hb : ∃ b tail, strHeader s.length ++ s ++ rest = b :: tail ∧
      ((0xa0 ≤ b ∧ b ≤ 0xbf) ∨ b = 0xd9 ∨ b = 0xda ∨ b = 0xdb) := by
    unfold strHeader
    split_ifs with h1 h2 h3
    · exact ⟨0xa0 + s.length, s ++ rest, by simp, by omega⟩
    · exact ⟨0xd9, s.length :: (s ++ rest), by simp, by omega⟩
    · exact ⟨0xda, be2 s.length ++ (s ++ rest), by simp, by omega⟩
    · exact ⟨0xdb, be4 s.length ++ (s ++ rest), by simp, by omega⟩
  obtain ⟨b, tail, he, hcode⟩ := hb
  rw [he] at key ⊢
  rw [decodeVal_strCode f b tail hcode, key]
  rfl

theorem decodeVal_mapHeader (f l : Nat) (tail : GoStr) (h : l < 2 ^ 32) :
    decodeVal (f + 1) (mapHeader l ++ tail) =
      (decodeEntries f l tail).map (fun p => (SVal.map p.1, p.2)) := by
  unfold mapHeader
  split_ifs with h1 h2
  · simp only [List.cons_append, List.nil_append]
    simp only [decodeVal]
    iterate 10 rw [if_neg (by omega)]
    rw [if_pos (by omega)]
    have e : 0x80 + l - 0x80 = l := by omega
    rw [e]
  · simp only [be2, List.cons_append, List.nil_append]
    simp only [decodeVal]
    iterate 11 rw [if_neg (by omega)]
    rw [if_pos trivial]
    have e : l / 2 ^ 8 % 256 * 256 + l % 256 = l := by omega
    rw [e]
  · simp only [be4, List.cons_append, List.nil_append]
    simp only [decodeVal]
    iterate 12 rw [if_neg (by omega)]
    rw [if_pos trivial]
    have e : ((l / 2 ^ 24 % 256 * 256 + l / 2 ^ 16 % 256) * 256 + l / 2 ^ 8 % 256) * 256 +
        l % 256 = l := by omega
    rw [e]

theorem twos8 (n : Int) (h1 : -(2 ^ 7) ≤ n) (h2 : n < 2 ^ 7) :
    twosVal (2 ^ 7) (2 ^ 8) (n % 2 ^ 8).toNat = n := by
  unfold twosVal
  split_ifs <;> omega

theorem twos16 (n : Int) (h1 : -(2 ^ 15) ≤ n) (h2 : n < 2 ^ 15) :
    twosVal (2 ^ 15) (2 ^ 16) (n % 2 ^ 16).toNat = n := by
  unfold twosVal
  split_ifs <;> omega

theorem twos32 (n : Int) (h1 : -(2 ^ 31) ≤ n) (h2 : n < 2 ^ 31) :
    twosVal (2 ^ 31) (2 ^ 32) (n % 2 ^ 32).toNat = n := by
  unfold twosVal
  split_ifs <;> omega

theorem twos64 (n : Int) (h1 : -(2 ^ 63) ≤ n) (h2 : n < 2 ^ 63) :
    twosVal (2 ^ 63) (2 ^ 64) (n % 2 ^ 64).toNat = n := by
  unfold twosVal
  split_ifs <;> omega

/-- Round trip of the msgpack layer, by induction on the decoding fuel:
parsing the encoding of any well-formed value (or entry list) consumes
exactly it and returns it unchanged. -/
theorem decode_encode_aux : ∀ f : Nat,
    (∀ v rest, valWF v = true → sizeVal v ≤ f →
      decodeVal f (encodeVal v ++ rest) = some (v, rest)) ∧
    (∀ m rest, entriesWF m = true → sizeEntries m ≤ f →
      decodeEntries f m.length (encodeEntries m ++ rest) = some (m, rest)) := by
  intro f
  induction f with
  | zero =>
    constructor
    · intro v rest _ hsz
      have := sizeVal_pos v
      omega
    · intro m rest _ hsz
      have := sizeEntries_pos m
      omega
  | succ f ih =>
    obtain ⟨ihV, ihE⟩ := ih
    constructor
    · intro v rest hwf hsz
      cases v with
      | nil =>
        simp [encodeVal, decodeVal]
      | str s =>
        simp only [valWF, Bool.and_eq_true, decide_eq_true_eq] at hwf
        exact decodeVal_str f s rest hwf.1
      | u8 n =>
        simp only [valWF, decide_eq_true_eq] at hwf
        simp [encodeVal, decodeVal]
        omega
      | u16 n =>
        simp only [valWF, decide_eq_true_eq] at hwf
        simp [encodeVal, be2, decodeVal]
        omega
      | u32 n =>
        simp only [valWF, decide_eq_true_eq] at hwf
        simp [encodeVal, be4, decodeVal]
        omega
      | u64 n =>
        simp only [valWF, decide_eq_true_eq] at hwf
        simp [encodeVal, be8, decodeVal]
        omega
      | i8 n =>
        simp only [valWF, decide_eq_true_eq] at hwf
        simp [encodeVal, decodeVal]
        convert twos8 n hwf.1 hwf.2 using 2
      | i16 n =>
        simp only [valWF, decide_eq_true_eq] at hwf
        simp [encodeVal, be2, decodeVal]
        convert twos16 n hwf.1 hwf.2 using 2
        omega
      | i32 n =>
        simp only [valWF, decide_eq_true_eq] at hwf
        simp [encodeVal, be4, decodeVal]
        convert twos32 n hwf.1 hwf.2 using 2
        omega
      | i64 n =>
        simp only [valWF, decide_eq_true_eq] at hwf
        simp [encodeVal, be8, decodeVal]
        convert twos64 n hwf.1 hwf.2 using 2
        omega
      | map m =>
        simp only [valWF, Bool.and_eq_true, decide_eq_true_eq] at hwf
        have hsz2 : sizeEntries m ≤ f := by
          simp only [sizeVal] at hsz
          omega
        rw [encodeVal, List.append_assoc, decodeVal_mapHeader f m.length _ hwf.1,
          ihE m rest hwf.2 hsz2]
        rfl
    · intro m rest hwf hsz
      cases m with
      | nil =>
        rfl
      | cons kv rest2 =>
        obtain ⟨k, v⟩ := kv
        simp only [entriesWF, Bool.and_eq_true, decide_eq_true_eq] at hwf
        obtain ⟨⟨hk, _⟩, hv, hr⟩ := hwf
        have hszv : sizeVal v ≤ f := by
          simp only [sizeEntries] at hsz
          omega
        have hszr : sizeEntries rest2 ≤ f := by
          simp only [sizeEntries] at hsz
          omega
        have hstr := decodeStr_encode k (encodeVal v ++ (encodeEntries rest2 ++ rest)) hk
        simp only [List.append_assoc] at hstr
        have hv2 := ihV v (encodeEntries rest2 ++ rest) hv hszv
        have hr2 := ihE rest2 rest hr hszr
        simp only [List.length_cons, encodeEntries, List.append_assoc, decodeEntries,
          hstr, hv2, hr2, Option.map_some']

theorem strHeader_length_pos (l : Nat) : 1 ≤ (strHeader l).length := by
  unfold strHeader
  split_ifs <;> simp [be2, be4]

theorem mapHeader_length_pos (l : Nat) : 1 ≤ (mapHeader l).length := by
  unfold mapHeader
  split_ifs <;> simp [be2, be4]

/-- Fuel bound: one more unit of fuel than the encoding has bytes is always
enough to decode it. -/
theorem size_le_both :
    (∀ v : SVal, sizeVal v ≤ (encodeVal v).length + 1 ∧ 1 ≤ (encodeVal v).length) ∧
    (∀ m : SessionMap, sizeEntries m ≤ (encodeEntries m).length + 1) := by
  have c1 : sizeVal .nil ≤ (encodeVal .nil).length + 1 ∧ 1 ≤ (encodeVal .nil).length := by
    simp [sizeVal, encodeVal]
  have c2 : ∀ s : GoStr, sizeVal (.str s) ≤ (encodeVal (.str s)).length + 1 ∧
      1 ≤ (encodeVal (.str s)).length := by
    intro s
    have := strHeader_length_pos s.length
    simp [sizeVal, encodeVal]
    omega
  have c3 : ∀ n : Nat, sizeVal (.u8 n) ≤ (encodeVal (.u8 n)).length + 1 ∧
      1 ≤ (encodeVal (.u8 n)).length := by
    intro n
    simp [sizeVal, encodeVal]
  have c4 : ∀ n : Nat, sizeVal (.u16 n) ≤ (encodeVal (.u16 n)).length + 1 ∧
      1 ≤ (encodeVal (.u16 n)).length := by
    intro n
    simp [sizeVal, encodeVal, be2]
  have c5 : ∀ n : Nat, sizeVal (.u32 n) ≤ (encodeVal (.u32 n)).length + 1 ∧
      1 ≤ (encodeVal (.u32 n)).length := by
    intro n
    simp [sizeVal, encodeVal, be4]
  have c6 : ∀ n : Nat, sizeVal (.u64 n) ≤ (encodeVal (.u64 n)).length + 1 ∧
      1 ≤ (encodeVal (.u64 n)).length := by
    intro n
    simp [sizeVal, encodeVal, be8]
  have c7 : ∀ n : Int, sizeVal (.i8 n) ≤ (encodeVal (.i8 n)).length + 1 ∧
      1 ≤ (encodeVal (.i8 n)).length := by
    intro n
    simp [sizeVal, encodeVal]
  have c8 : ∀ n : Int, sizeVal (.i16 n) ≤ (encodeVal (.i16 n)).length + 1 ∧
      1 ≤ (encodeVal (.i16 n)).length := by
    intro n
    simp [sizeVal, encodeVal, be2]
  have c9 : ∀ n : Int, sizeVal (.i32 n) ≤ (encodeVal (.i32 n)).length + 1 ∧
      1 ≤ (encodeVal (.i32 n)).length := by
    intro n
    simp [sizeVal, encodeVal, be4]
  have c10 : ∀ n : Int, sizeVal (.i64 n) ≤ (encodeVal (.i64 n)).length + 1 ∧
      1 ≤ (encodeVal (.i64 n)).length := by
    intro n
    simp [sizeVal, encodeVal, be8]
  have c11 : ∀ m : SessionMap, sizeEntries m ≤ (encodeEntries m).length + 1 →
      sizeVal (.map m) ≤ (encodeVal (.map m)).length + 1 ∧ 1 ≤ (encodeVal (.map m)).length := by
    intro m ih
    have := mapHeader_length_pos m.length
    simp [sizeVal, encodeVal]
    omega
  have c12 : sizeEntries ([] : SessionMap) ≤ (encodeEntries []).length + 1 := by
    simp [sizeEntries, encodeEntries]
  have c13 : ∀ (k : GoStr) (v : SVal) (rest : SessionMap),
      (sizeVal v ≤ (encodeVal v).length + 1 ∧ 1 ≤ (encodeVal v).length) →
      sizeEntries rest ≤ (encodeEntries rest).length + 1 →
      sizeEntries ((k, v) :: rest) ≤ (encodeEntries ((k, v) :: rest)).length + 1 := by
    intro k v rest ih1 ih2
    have := strHeader_length_pos k.length
    simp [sizeEntries, encodeEntries]
    omega
  exact ⟨fun v => encodeVal.induct _ _ c1 c2 c3 c4 c5 c6 c7 c8 c9 c10 c11 c12 c13 v,
    fun m => encodeEntries.induct _ _ c1 c2 c3 c4 c5 c6 c7 c8 c9 c10 c11 c12 c13 m⟩

theorem strHeader_bytes (l : Nat) (h : l < 2 ^ 32) : ∀ b ∈ strHeader l, b < 256 := by
  intro b hb
  unfold strHeader at hb
  split_ifs at hb <;> simp [be2, be4] at hb <;> omega

theorem mapHeader_bytes (l : Nat) (h : l < 2 ^ 32) : ∀ b ∈ mapHeader l, b < 256 := by
  intro b hb
  unfold mapHeader at hb
  split_ifs at hb <;> simp [be2, be4] at hb <;> omega

/-- Every byte of the encoding of a well-formed value is an actual byte. -/
theorem bytes_lt_both :
    (∀ v : SVal, valWF v = true → ∀ b ∈ encodeVal v, b < 256) ∧
    (∀ m : SessionMap, entriesWF m = true → ∀ b ∈ encodeEntries m, b < 256) := by
  have c1 : valWF .nil = true → ∀ b ∈ encodeVal .nil, b < 256 := by
    intro _ b hb
    simp [encodeVal] at hb
    omega
  have c2 : ∀ s : GoStr, valWF (.str s) = true → ∀ b ∈ encodeVal (.str s), b < 256 := by
    intro s hwf b hb
    simp only [valWF, Bool.and_eq_true, decide_eq_true_eq, List.all_eq_true] at hwf
    simp only [encodeVal, List.mem_append] at hb
    rcases hb with hb | hb
    · exact strHeader_bytes s.length hwf.1 b hb
    · exact hwf.2 b hb
  have c3 : ∀ n : Nat, valWF (.u8 n) = true → ∀ b ∈ encodeVal (.u8 n), b < 256 := by
    intro n _ b hb
    simp [encodeVal] at hb
    omega
  have c4 : ∀ n : Nat, valWF (.u16 n) = true → ∀ b ∈ encodeVal (.u16 n), b < 256 := by
    intro n _ b hb
    simp [encodeVal, be2] at hb
    omega
  have c5 : ∀ n : Nat, valWF (.u32 n) = true → ∀ b ∈ encodeVal (.u32 n), b < 256 := by
    intro n _ b hb
    simp [encodeVal, be4] at hb
    omega
  have c6 : ∀ n : Nat, valWF (.u64 n) = true → ∀ b ∈ encodeVal (.u64 n), b < 256 := by
    intro n _ b hb
    simp [encodeVal, be8] at hb
    omega
  have c7 : ∀ n : Int, valWF (.i8 n) = true → ∀ b ∈ encodeVal (.i8 n), b < 256 := by
    intro n _ b hb
    simp [encodeVal] at hb
    omega
  have c8 : ∀ n : Int, valWF (.i16 n) = true → ∀ b ∈ encodeVal (.i16 n), b < 256 := by
    intro n _ b hb
    simp [encodeVal, be2] at hb
    omega
  have c9 : ∀ n : Int, valWF (.i32 n) = true → ∀ b ∈ encodeVal (.i32 n), b < 256 := by
    intro n _ b hb
    simp [encodeVal, be4] at hb
    omega
  have c10 : ∀ n : Int, valWF (.i64 n) = true → ∀ b ∈ encodeVal (.i64 n), b < 256 := by
    intro n _ b hb
    simp [encodeVal, be8] at hb
    omega
  have c11 : ∀ m : SessionMap, (entriesWF m = true → ∀ b ∈ encodeEntries m, b < 256) →
      valWF (.map m) = true → ∀ b ∈ encodeVal (.map m), b < 256 := by
    intro m ih hwf b hb
    simp only [valWF, Bool.and_eq_true, decide_eq_true_eq] at hwf
    simp only [encodeVal, List.mem_append] at hb
    rcases hb with hb | hb
    · exact mapHeader_bytes m.length hwf.1 b hb
    · exact ih hwf.2 b hb
  have c12 : entriesWF ([] : SessionMap) = true → ∀ b ∈ encodeEntries [], b < 256 := by
    intro _ b hb
    simp [encodeEntries] at hb
  have c13 : ∀ (k : GoStr) (v : SVal) (rest : SessionMap),
      (valWF v = true → ∀ b ∈ encodeVal v, b < 256) →
      (entriesWF rest = true → ∀ b ∈ encodeEntries rest, b < 256) →
      entriesWF ((k, v) :: rest) = true → ∀ b ∈ encodeEntries ((k, v) :: rest), b < 256 := by
    intro k v rest ih1 ih2 hwf b hb
    simp only [entriesWF, Bool.and_eq_true, decide_eq_true_eq, List.all_eq_true] at hwf
    simp only [encodeEntries, List.mem_append] at hb
    rcases hb with ((hb | hb) | hb) | hb
    · exact strHeader_bytes k.length hwf.1.1 b hb
    · exact hwf.1.2 b hb
    · exact ih1 hwf.2.1 b hb
    · exact ih2 hwf.2.2 b hb
  exact ⟨fun v => encodeVal.induct _ _ c1 c2 c3 c4 c5 c6 c7 c8 c9 c10 c11 c12 c13 v,
    fun m => encodeEntries.induct _ _ c1 c2 c3 c4 c5 c6 c7 c8 c9 c10 c11 c12 c13 m⟩

/-- Model of `encoding.EncodeMsgPack` on the session value universe: a nil Go
map encodes as msgpack nil, otherwise the map value is encoded.  The Go
wrapper can only fail for value types outside this universe, so the model is
total. -/
def EncodeMsgPack : Option SessionMap → GoStr
  | none => encodeVal .nil
  | some m => encodeVal (.map m)

/-- Model of `encoding.DecodeMsgPack`: decode one msgpack value into a Go
`map[string]interface{}` target.  A msgpack nil leaves the map nil (`none`),
a msgpack map decodes to a non-nil map, and anything else is a decode error.
The fuel `length + 1` always suffices to decode an encoded value. -/
def DecodeMsgPack (bs : GoStr) : Except GoStr (Option SessionMap) :=
  match decodeVal (bs.length + 1) bs with
  | some (.nil, _) => .ok none
  | some (.map m, _) => .ok (some m)
  | _ => .error (strBytes "msgpack: decode error")

/-- Round trip of the msgpack wrappers on well-formed session maps. -/
theorem DecodeMsgPack_EncodeMsgPack (m : SessionMap)
    (h1 : entriesWF m = true) (h2 : m.length < 2 ^ 32) :
    DecodeMsgPack (EncodeMsgPack (some m)) = .ok (some m) := by
  have hwf : valWF (.map m) = true := by
    simp only [valWF, Bool.and_eq_true, decide_eq_true_eq]
    exact ⟨h2, h1⟩
  have hsz : sizeVal (.map m) ≤ (encodeVal (.map m)).length + 1 :=
    (size_le_both.1 (.map m)).1
  have hr := (decode_encode_aux ((encodeVal (.map m)).length + 1)).1 (.map m) [] hwf hsz
  rw [List.append_nil] at hr
  unfold DecodeMsgPack EncodeMsgPack
  rw [hr]

/-! ## Association lists

Go maps (the redis keyspace, `map[string]interface{}` payloads) are modelled
as association lists with the usual lookup / overwrite / erase operations. -/

/-- Lookup by key. -/
def alLookup {α : Type} : List (GoStr × α) → GoStr → Option α
  | [], _ => none
  | (k, v) :: rest, key => if k = key then some v else alLookup rest key

/-- Insert or overwrite a binding (Go `m[key] = val`). -/
def alSet {α : Type} : List (GoStr × α) → GoStr → α → List (GoStr × α)
  | [], key, val => [(key, val)]
  | (k, v) :: rest, key, val =>
    if k = key then (k, val) :: rest else (k, v) :: alSet rest key val

/-- Remove a binding (redis `DEL`). -/
def alErase {α : Type} : List (GoStr × α) → GoStr → List (GoStr × α)
  | [], _ => []
  | (k, v) :: rest, key => if k = key then alErase rest key else (k, v) :: alErase rest key

/-! ## The session Store (src/state/store.go with src/state/cache.go)

The `Store` struct, its configuration and its methods are translated from
`src/state/store.go` (the current revision: `Load(sessionID string)`,
`validateSessionID`, `Clear` returning the delete error).  Ambient effects
live in `Env`; the redis keyspace and the issued commands live in `World`. -/

/-- Constant `idOctets` (store.go line 16): 21 random bytes per session ID. -/
def idOctets : Nat := 7 * 3

/-- Constant `signatureStart` (store.go line 17): 28, the byte length of the
base64 ID and the split point of the cookie value. -/
def signatureStart : Nat := idOctets * 4 / 3

/-- Constant `signatureLength` (store.go line 18). -/
def signatureLength : Nat := 27

/-- Constant `cookieValueLength` (store.go line 19): 55. -/
def cookieValueLength : Nat := signatureStart + signatureLength

/-- Go error values the model distinguishes: plain `errors.New`-style errors,
the redis nil reply (`Get` on an absent key), and redis transport errors. -/
inductive GoErr where
  | msg (s : GoStr)
  | redisNil
  | redis (s : GoStr)
deriving DecidableEq

/-- One cache command, recorded in issue order. -/
inductive CacheOp where
  | get (key : GoStr)
  | set (key value : GoStr)
  | del (key : GoStr)
deriving DecidableEq

/-- `StoreConfig` of store.go (only the fields the core reads). -/
structure StoreConfig where
  DefaultExpiration : GoStr
  CookieName : GoStr
  CookieSecret : GoStr

/-- The `Store` struct of store.go: session ID, expiry (`uint64` epoch
seconds), payload (`nil`-able map), and its configuration. -/
structure Store where
  ID : GoStr
  Expires : Nat
  Data : Option SessionMap
  config : StoreConfig

/-- Ambient effects: the wall clock, the SHA-1 digest (opaque), the secure
random source (bytes and failure of the i-th `rand.Read`), and the error
behaviour of the redis transport per command and key. -/
structure Env where
  now : Nat
  sha1 : GoStr → GoStr
  randBytes : Nat → GoStr
  randErr : Nat → Option GoStr
  getErr : GoStr → Option GoStr
  setErr : GoStr → Option GoStr
  delErr : GoStr → Option GoStr

/-- Mutable world: the redis keyspace, the number of `rand.Read` calls made,
and the trace of cache commands issued. -/
structure World where
  cache : List (GoStr × GoStr)
  randCtr : Nat
  trace : List CacheOp

/-- Model of `Cache.getSessionData` (cache.go): `connection.Get(key).Result()`.
A transport failure or the nil reply for an absent key is an error. -/
def getSessionData (env : Env) (w : World) (key : GoStr) : Except GoErr GoStr × World :=
  let w2 := { w with trace := w.trace ++ [CacheOp.get key] }
  match env.getErr key with
  | some e => (.error (.redis e), w2)
  | none =>
    match alLookup w.cache key with
    | some v => (.ok v, w2)
    | none => (.error .redisNil, w2)

/-- Model of `Cache.setSessionData` (cache.go): `connection.Set(key, value, 0)`,
no TTL ever passed. -/
def setSessionData (env : Env) (w : World) (key value : GoStr) : Option GoErr × World :=
  let w2 := { w with trace := w.trace ++ [CacheOp.set key value] }
  match env.setErr key with
  | some e => (some (.redis e), w2)
  | none => (none, { w2 with cache := alSet w2.cache key value })

/-- Model of `Cache.deleteSessionData` (cache.go): `connection.Del(key)`.
Deleting an absent key succeeds with count zero, so only transport failures
are errors. -/
def deleteSessionData (env : Env) (w : World) (key : GoStr) : Option GoErr × World :=
  let w2 := { w with trace := w.trace ++ [CacheOp.del key] }
  match env.delErr key with
  | some e => (some (.redis e), w2)
  | none => (none, { w2 with cache := alErase w2.cache key })

/-- ASCII digit or letter value for `strconv` parsing. -/
def digitVal (c : Nat) : Option Nat :=
  if 48 ≤ c ∧ c ≤ 57 then some (c - 48)
  else if 97 ≤ c ∧ c ≤ 122 then some (c - 97 + 10)
  else if 65 ≤ c ∧ c ≤ 90 then some (c - 65 + 10)
  else none

/-- Digit loop of Go `strconv.ParseUint` with `bitSize` 64: a bad digit is a
syntax error, exceeding `2^64 - 1` is a range error. -/
def parseUintDigits (base : Nat) : Nat → GoStr → Except GoErr Nat
  | acc, [] => .ok acc
  | acc, c :: cs =>
    match digitVal c with
    | none => .error (.msg (strBytes "strconv.ParseUint: parsing: invalid syntax"))
    | some d =>
      if base ≤ d then .error (.msg (strBytes "strconv.ParseUint: parsing: invalid syntax"))
      else if 2 ^ 64 ≤ acc * base + d then
        .error (.msg (strBytes "strconv.ParseUint: parsing: value out of range"))
      else parseUintDigits base (acc * base + d) cs

/-- Model of Go `strconv.ParseUint(s, 0, 64)` (base detection by prefix, as in
the Go version the repo targets: `0x` hex, leading `0` octal, else decimal). -/
def ParseUint0 (s : GoStr) : Except GoErr Nat :=
  match s with
  | [] => .error (.msg (strBytes "strconv.ParseUint: parsing: invalid syntax"))
  | c :: rest =>
    if c = 48 then
      match rest with
      | [] => .ok 0
      | x :: rest2 =>
        if x = 120 ∨ x = 88 then
          match rest2 with
          | [] => .error (.msg (strBytes "strconv.ParseUint: parsing: invalid syntax"))
          | _ => parseUintDigits 16 0 rest2
        else parseUintDigits 8 0 rest
    else parseUintDigits 10 0 (c :: rest)

/-- Model of `Store.regenerateID` (store.go lines 149-158): 21 bytes from
`crypto/rand`, base64-encoded into `s.ID`; a random-source failure is
returned and leaves the ID unchanged. -/
def Store.regenerateID (env : Env) (w : World) (s : Store) : Option GoErr × World × Store :=
  let w2 := { w with randCtr := w.randCtr + 1 }
  match env.randErr w.randCtr with
  | some e => (some (.msg e), w2, s)
  | none => (none, w2, { s with ID := EncodeBase64 (env.randBytes w.randCtr) })

/-- Model of `Store.generateSignature` (store.go lines 162-167): base64 of the
SHA-1 digest of `ID + CookieSecret`, truncated to 27 bytes. -/
def Store.generateSignature (env : Env) (s : Store) : GoStr :=
  (EncodeBase64 (env.sha1 (s.ID ++ s.config.CookieSecret))).take signatureLength

/-- Model of `Store.setupExpiration` (store.go lines 171-187): parse the
configured default expiration, stamp `Expires = now + period` and write
`last_access = now` into a non-nil payload. -/
def Store.setupExpiration (env : Env) (s : Store) : Option GoErr × Store :=
  let now := env.now % 2 ^ 64
  match ParseUint0 s.config.DefaultExpiration with
  | .error e => (some e, s)
  | .ok expirationPeriod =>
    let s2 := { s with Expires := (now + expirationPeriod) % 2 ^ 64 }
    match s2.Data with
    | none => (none, s2)
    | some m => (none, { s2 with Data := some (alSet m (strBytes "last_access") (.u64 now)) })

/-- Model of `Store.validateSession` (store.go lines 190-209): regenerate an
unset ID, stamp an unset expiry, then reject a nil payload. -/
def Store.validateSession (env : Env) (w : World) (s : Store) : Option GoErr × World × Store :=
  match (if s.ID.length = 0 then Store.regenerateID env w s else (none, w, s)) with
  | (some e, w2, s2) => (some e, w2, s2)
  | (none, w2, s2) =>
    match (if s2.Expires = 0 then Store.setupExpiration env s2 else (none, s2)) with
    | (some e, s3) => (some e, w2, s3)
    | (none, s3) =>
      match s3.Data with
      | none => (some (.msg (strBytes "No session data to store")), w2, s3)
      | some _ => (none, w2, s3)

/-- Model of `Store.encodeSessionData` (store.go lines 296-305): msgpack then
base64. -/
def Store.encodeSessionData (s : Store) : GoStr :=
  EncodeBase64 (EncodeMsgPack s.Data)

/-- Model of `Store.setSession` (store.go lines 287-292). -/
def Store.setSession (env : Env) (w : World) (s : Store) (encodedData : GoStr) :
    Option GoErr × World :=
  setSessionData env w s.ID encodedData

/-- Model of the `Store.Store` method (store.go lines 94-114): validate,
encode, persist; every failure is returned to the caller. -/
def Store.store (env : Env) (w : World) (s : Store) : Option GoErr × World × Store :=
  match Store.validateSession env w s with
  | (some e, w2, s2) => (some e, w2, s2)
  | (none, w2, s2) =>
    let encodedData := Store.encodeSessionData s2
    match Store.setSession env w2 s2 encodedData with
    | (some e, w3) => (some e, w3, s2)
    | (none, w3) => (none, w3, s2)

/-- Model of `Store.Delete` (store.go lines 120-134): delete by `*id` when it
is non-nil and non-empty, else by the current `s.ID`; the in-memory session is
not touched. -/
def Store.delete (env : Env) (w : World) (s : Store) (id : Option GoStr) :
    Option GoErr × World × Store :=
  let sessionID :=
    match id with
    | some i => if 0 < i.length then i else s.ID
    | none => s.ID
  match deleteSessionData env w sessionID with
  | (some e, w2) => (some e, w2, s)
  | (none, w2) => (none, w2, s)

/-- Model of `Store.Clear` (store.go lines 138-146): delete the stored
session; on success nil the payload and regenerate the ID (the regeneration
error is discarded); a delete failure is returned with nothing reset. -/
def Store.clear (env : Env) (w : World) (s : Store) : Option GoErr × World × Store :=
  match Store.delete env w s none with
  | (some e, w2, s2) => (some e, w2, s2)
  | (none, w2, s2) =>
    let s3 := { s2 with Data := none }
    let r := Store.regenerateID env w2 s3
    (none, r.2.1, r.2.2)

/-- Model of `Store.validateSessionID` (store.go lines 213-221): a cookie
value shorter than 55 bytes clears the session (ignoring the clear result)
and returns an error. -/
def Store.validateSessionID (env : Env) (w : World) (s : Store) (sessionID : GoStr) :
    Option GoErr × World × Store :=
  if sessionID.length < cookieValueLength then
    let r := Store.clear env w s
    (some (.msg (strBytes "Cookie signature is less than the desired cookie length")),
      r.2.1, r.2.2)
  else (none, w, s)

/-- Model of `Store.extractAndValidateSessionIDParts` (store.go lines
226-235): set `s.ID` to the first 28 bytes, recompute the signature over it,
and clear the session on mismatch (ignoring the clear result). -/
def Store.extractAndValidateSessionIDParts (env : Env) (w : World) (s : Store)
    (sessionID : GoStr) : World × Store :=
  let s2 := { s with ID := sessionID.take signatureStart }
  let sig := sessionID.drop signatureStart
  if sig ≠ Store.generateSignature env s2 then
    let r := Store.clear env w s2
    (r.2.1, r.2.2)
  else (w, s2)

/-- Model of `Store.getStoredSession` (store.go lines 238-246). -/
def Store.getStoredSession (env : Env) (w : World) (s : Store) : Except GoErr GoStr × World :=
  getSessionData env w s.ID

/-- Model of `Store.decodeSession` (store.go lines 249-262): base64-decode,
then msgpack-decode; either failure is propagated. -/
def Store.decodeSession (sessionVal : GoStr) : Except GoErr (Option SessionMap) :=
  match DecodeBase64 sessionVal with
  | none => .error (.msg (strBytes "illegal base64 data"))
  | some bytes =>
    match DecodeMsgPack bytes with
    | .error e => .error (.msg e)
    | .ok d => .ok d

/-- Outcome of `validateExpiration`: success, an error, or a Go panic from
the unchecked type assertion. -/
inductive VOut where
  | panic
  | ok (s : Store)
  | err (e : GoErr) (s : Store)

/-- Model of `Store.validateExpiration` (store.go lines 266-284):
`s.Expires = uint64(s.Data["expires"].(uint32))` — the type assertion panics
unless the decoded value is exactly a `uint32`; an unset (zero) expiry is
stamped fresh (ignoring the stamping error); an expiry at or before now nils
the payload and returns an error. -/
def Store.validateExpiration (env : Env) (s : Store) : VOut :=
  match alLookup (s.Data.getD []) (strBytes "expires") with
  | some (SVal.u32 n) =>
    let s2 := { s with Expires := n % 2 ^ 32 }
    let s3 := if s2.Expires = 0 then (Store.setupExpiration env s2).2 else s2
    let now := env.now % 2 ^ 64
    if s3.Expires ≤ now then
      VOut.err (.msg (strBytes "Store has expired")) { s3 with Data := none }
    else VOut.ok s3
  | _ => VOut.panic

/-- Result of `Load`: nil error, a returned error, or a panic. -/
inductive LoadRes where
  | ok
  | err (e : GoErr)
  | panic
deriving DecidableEq

/-- Model of the `Store.Load` method (store.go lines 56-91). -/
def Store.load (env : Env) (w : World) (s : Store) (sessionID : GoStr) :
    LoadRes × World × Store :=
  match Store.validateSessionID env w s sessionID with
  | (some e, w2, s2) => (.err e, w2, s2)
  | (none, w2, s2) =>
    let ws := Store.extractAndValidateSessionIDParts env w2 s2 sessionID
    match Store.getStoredSession env ws.1 ws.2 with
    | (.error e, w4) => (.err e, w4, ws.2)
    | (.ok storedSession, w4) =>
      match Store.decodeSession storedSession with
      | .error e => (.err e, w4, { ws.2 with Data := none })
      | .ok d =>
        let s4 := { ws.2 with Data := d }
        match d with
        | none =>
          let r := Store.clear env w4 s4
          (.ok, r.2.1, r.2.2)
        | some _ =>
          match Store.validateExpiration env s4 with
          | .panic => (.panic, w4, s4)
          | .err e s5 => (.err e, w4, s5)
          | .ok s5 => (.ok, w4, s5)

/-! ## Concrete fixtures for witnesses and counterexamples -/

/-- Configuration fixture: default expiration "60", empty cookie secret. -/
def cfg0 : StoreConfig :=
  { DefaultExpiration := strBytes "60", CookieName := strBytes "TEST", CookieSecret := [] }

/-- Environment fixture: clock at 1000, an all-zero SHA-1 digest and random
source, and a fault-free transport. -/
def env0 : Env where
  now := 1000
  sha1 := fun _ => List.replicate 20 0
  randBytes := fun _ => List.replicate idOctets 0
  randErr := fun _ => none
  getErr := fun _ => none
  setErr := fun _ => none
  delErr := fun _ => none

/-- Empty world: empty keyspace, no commands issued. -/
def w0 : World := { cache := [], randCtr := 0, trace := [] }

/-- Freshly constructed store (`NewStore`): zero values throughout. -/
def s0 : Store := { ID := [], Expires := 0, Data := none, config := cfg0 }

/-- A 55-byte cookie value that validates under `env0` with `cfg0`: the ID
part is 28 times byte 65 and the matching truncated signature is 27 times
byte 65. -/
def cookie0 : GoStr := List.replicate cookieValueLength 65

/-- A world whose cache holds, under the ID of `cookie0`, the encoding of a
nil (absent) payload: msgpack nil, base64-wrapped. -/
def wNilPayload : World :=
  { cache := [(List.replicate 28 65, EncodeBase64 (EncodeMsgPack none))],
    randCtr := 0, trace := [] }

/-- A world whose cache holds, under the ID of `cookie0`, an encoded payload
whose `expires` field is 940 — in the past for `env0` (now = 1000). -/
def wExpired : World :=
  { cache := [(List.replicate 28 65,
      EncodeBase64 (EncodeMsgPack (some [(strBytes "expires", .u32 940)])))],
    randCtr := 0, trace := [] }

/-- A world whose cache holds, under the ID of `cookie0`, an encoded non-nil
payload with no `expires` key at all. -/
def wNoExpires : World :=
  { cache := [(List.replicate 28 65,
      EncodeBase64 (EncodeMsgPack (some [(strBytes "k", .u64 5)])))],
    randCtr := 0, trace := [] }

theorem alLookup_alSet_self {α : Type} (l : List (GoStr × α)) (k : GoStr) (v : α) :
    alLookup (alSet l k v) k = some v := by
  induction l with
  | nil => simp [alSet, alLookup]
  | cons kv rest ih =>
    obtain ⟨k2, v2⟩ := kv
    by_cases h : k2 = k
    · simp [alSet, alLookup, h]
    · simp [alSet, alLookup, h, ih]

theorem clear_data_none (env : Env) (w : World) (s : Store) (h : s.Data = none) :
    (Store.clear env w s).2.2.Data = none := by
  unfold Store.clear Store.delete deleteSessionData Store.regenerateID
  cases hd : env.delErr s.ID <;> cases hr : env.randErr w.randCtr <;>
    simp [hd, hr, h]

theorem setupExpiration_data_some (env : Env) (s : Store) (m : SessionMap)
    (hm : s.Data = some m) : (Store.setupExpiration env s).2.Data ≠ none := by
  unfold Store.setupExpiration
  split
  · simp [hm]
  · simp only [hm]
    simp

theorem validateExpiration_ok (env : Env) (s s2 : Store)
    (h : Store.validateExpiration env s = VOut.ok s2) :
    env.now % 2 ^ 64 < s2.Expires ∧ s2.Data ≠ none := by
  simp only [Store.validateExpiration] at h
  split at h
  · rename_i n hn
    have hdata : ∃ m, s.Data = some m := by
      cases hs : s.Data with
      | none => rw [hs] at hn; simp [alLookup] at hn
      | some m => exact ⟨m, rfl⟩
    obtain ⟨m, hm⟩ := hdata
    by_cases hz : n % 2 ^ 32 = 0
    · rw [if_pos hz] at h
      split at h
      · simp at h
      · rename_i hgt
        have h2 : _ = s2 := VOut.ok.inj h
        rw [← h2]
        exact ⟨by omega, setupExpiration_data_some env _ m (by simp [hm])⟩
    · rw [if_neg hz] at h
      split at h
      · simp at h
      · rename_i hgt
        have h2 : _ = s2 := VOut.ok.inj h
        rw [← h2]
        simp only [hm]
        dsimp only at hgt ⊢
        exact ⟨by omega, by simp⟩
  · simp at h

theorem load_ok_shape (env : Env) (w : World) (s : Store) (c : GoStr)
    (res : LoadRes) (w2 : World) (s2 : Store)
    (h : Store.load env w s c = (res, w2, s2)) (hres : res = LoadRes.ok) :
    s2.Data = none ∨ (env.now % 2 ^ 64 < s2.Expires ∧ s2.Data ≠ none) := by
  subst hres
  simp only [Store.load] at h
  split at h
  · simp at h
  · rename_i w3 s3 heq
    split at h
    · simp at h
    · rename_i storedSession w4 hget
      split at h
      · simp at h
      · rename_i d hdec
        split at h
        · simp only [Prod.mk.injEq] at h
          left
          rw [← h.2.2]
          exact clear_data_none env w4 _ rfl
        · rename_i m hm
          split at h
          · simp at h
          · simp at h
          · rename_i s5 hve
            simp only [Prod.mk.injEq] at h
            right
            rw [← h.2.2]
            exact validateExpiration_ok env _ s5 hve

/-- C1 (amended): when `Load` returns a nil error the payload is either the
accepted session — non-nil, with its expiry strictly in the future — or the
reset payload, which the code leaves nil (`Clear` sets `s.Data = nil`), not a
non-nil empty map. -/
theorem C1_load_nil_error_payload (env : Env) (w : World) (s : Store) (c : GoStr)
    (h : (Store.load env w s c).1 = LoadRes.ok) :
    (Store.load env w s c).2.2.Data = none ∨
      (env.now % 2 ^ 64 < (Store.load env w s c).2.2.Expires ∧
        (Store.load env w s c).2.2.Data ≠ none) :=
  load_ok_shape env w s c (Store.load env w s c).1 (Store.load env w s c).2.1
    (Store.load env w s c).2.2 rfl h

/-- C1 witness: the amended theorem applied to the concrete nil-payload
scenario. -/
theorem C1_witness :
    (Store.load env0 wNilPayload s0 cookie0).1 = LoadRes.ok ∧
      ((Store.load env0 wNilPayload s0 cookie0).2.2.Data = none ∨
        (env0.now % 2 ^ 64 < (Store.load env0 wNilPayload s0 cookie0).2.2.Expires ∧
          (Store.load env0 wNilPayload s0 cookie0).2.2.Data ≠ none)) :=
  ⟨by decide, C1_load_nil_error_payload env0 wNilPayload s0 cookie0 (by decide)⟩

/-- C1 counterexample: a well-formed, correctly signed cookie whose cached
record decodes to a nil payload makes `Load` return a nil error while the
payload is nil — refuting "the payload is non-nil on every non-error path". -/
theorem C1_counterexample :
    (Store.load env0 wNilPayload s0 cookie0).1 = LoadRes.ok ∧
      (Store.load env0 wNilPayload s0 cookie0).2.2.Data = none :=
  ⟨by decide, by rfl⟩

/-- C9 (code was found wrong): the expiry read is an unchecked type assertion
`s.Data["expires"].(uint32)`, so a successfully decoded non-nil payload whose
`expires` value is absent — or has any other width, here `uint64` — makes
`Load` panic instead of resolving to an error or a fresh session: the code
does not defensively check the decoded type. -/
theorem C9_expires_assertion_panics :
    (Store.load env0 wNoExpires s0 cookie0).1 = LoadRes.panic ∧
      Store.validateExpiration env0
        { s0 with Data := some [(strBytes "expires", .u64 940)] } = VOut.panic :=
  ⟨by decide, rfl⟩

/-- C10 (confirmed): `Delete` issues exactly one cache delete — keyed by
`*id` when that is non-nil and non-empty, by the current `s.ID` otherwise —
propagates exactly the transport error of that delete, and returns the
in-memory `Store` (ID, Expires, Data) unchanged. -/
theorem C10_delete_frame (env : Env) (w : World) (s : Store) (id : Option GoStr) :
    Store.delete env w s id =
      ((env.delErr (match id with
          | some i => if 0 < i.length then i else s.ID
          | none => s.ID)).map GoErr.redis,
        { cache :=
            match env.delErr (match id with
                | some i => if 0 < i.length then i else s.ID
                | none => s.ID) with
            | some _ => w.cache
            | none => alErase w.cache (match id with
                | some i => if 0 < i.length then i else s.ID
                | none => s.ID),
          randCtr := w.randCtr,
          trace := w.trace ++ [CacheOp.del (match id with
              | some i => if 0 < i.length then i else s.ID
              | none => s.ID)] },
        s) := by
  unfold Store.delete deleteSessionData
  cases id with
  | none => cases h : env.delErr s.ID <;> simp [h]
  | some i =>
    by_cases hl : 0 < i.length
    · simp only [if_pos hl]
      cases h : env.delErr i <;> simp [h]
    · simp only [if_neg hl]
      cases h : env.delErr s.ID <;> simp [h]

/-- Store fixture with ID "abc" and a non-empty payload. -/
def sAbc : Store :=
  { ID := strBytes "abc", Expires := 0,
    Data := some [(strBytes "test", .str (strBytes "x"))], config := cfg0 }

/-- Environment fixture whose transport fails exactly the delete of key
"abc". -/
def envDelAbc : Env :=
  { env0 with delErr := fun k => if k = strBytes "abc" then some (strBytes "Unsuccessful Delete") else none }

/-- C5 counterexample: when the cache delete fails, `Clear` returns the error
without resetting anything — the ID is still "abc" and the payload is still
loaded — refuting "a cache-delete failure never blocks regeneration". -/
theorem C5_counterexample :
    (Store.clear envDelAbc w0 sAbc).1 = some (.redis (strBytes "Unsuccessful Delete")) ∧
      (Store.clear envDelAbc w0 sAbc).2.2.ID = strBytes "abc" ∧
      (Store.clear envDelAbc w0 sAbc).2.2.Data = sAbc.Data :=
  ⟨by decide, by decide, rfl⟩

/-- C5 (amended): `Clear` attempts one cache delete of the current ID.  When
the delete succeeds it unconditionally nils the payload and regenerates the
ID — a fresh 28-byte base64 token, so different from any ID of another
length, such as "abc".  When the delete fails, `Clear` returns that error and
leaves the payload and ID untouched. -/
theorem C5_clear (env : Env) (w : World) (s : Store)
    (hrb : (env.randBytes w.randCtr).length = idOctets) :
    (env.delErr s.ID = none → env.randErr w.randCtr = none →
      Store.clear env w s = (none,
        { cache := alErase w.cache s.ID, randCtr := w.randCtr + 1,
          trace := w.trace ++ [CacheOp.del s.ID] },
        { s with Data := none, ID := EncodeBase64 (env.randBytes w.randCtr) }) ∧
      (EncodeBase64 (env.randBytes w.randCtr)).length = 28) ∧
    (∀ m, env.delErr s.ID = some m →
      Store.clear env w s = (some (.redis m),
        { cache := w.cache, randCtr := w.randCtr,
          trace := w.trace ++ [CacheOp.del s.ID] }, s)) := by
  constructor
  · intro hdel hrand
    constructor
    · unfold Store.clear Store.delete deleteSessionData Store.regenerateID
      simp [hdel, hrand]
    · rw [EncodeBase64_length, hrb]
      rfl
  · intro m hdel
    unfold Store.clear Store.delete deleteSessionData
    simp [hdel]

/-- C5 witness: the amended theorem on the concrete "abc" store with a
healthy transport. -/
theorem C5_witness :
    Store.clear env0 w0 sAbc = (none,
      { cache := alErase w0.cache sAbc.ID, randCtr := w0.randCtr + 1,
        trace := w0.trace ++ [CacheOp.del sAbc.ID] },
      { sAbc with Data := none, ID := EncodeBase64 (env0.randBytes w0.randCtr) }) ∧
    (EncodeBase64 (env0.randBytes w0.randCtr)).length = 28 :=
  (C5_clear env0 w0 sAbc (by decide)).1 rfl rfl

theorem validateSession_nil_data (env : Env) (w : World) (s : Store)
    (hd : s.Data = none)
    (hrand : s.ID.length = 0 → env.randErr w.randCtr = none)
    (hparse : s.Expires = 0 → ∃ n, ParseUint0 s.config.DefaultExpiration = Except.ok n) :
    (Store.validateSession env w s).1 = some (.msg (strBytes "No session data to store")) ∧
      (Store.validateSession env w s).2.1.cache = w.cache ∧
      (Store.validateSession env w s).2.1.trace = w.trace ∧
      (Store.validateSession env w s).2.2.Data = none := by
  unfold Store.validateSession
  by_cases hid : s.ID.length = 0
  · rw [if_pos hid]
    unfold Store.regenerateID
    rw [hrand hid]
    dsimp only
    by_cases hexp : s.Expires = 0
    · obtain ⟨n, hn⟩ := hparse hexp
      rw [if_pos (show ({ s with ID := EncodeBase64 (env.randBytes w.randCtr) } : Store).Expires = 0 from hexp)]
      unfold Store.setupExpiration
      rw [hn]
      dsimp only
      simp [hd]
    · rw [if_neg (show ¬ ({ s with ID := EncodeBase64 (env.randBytes w.randCtr) } : Store).Expires = 0 from hexp)]
      simp [hd]
  · rw [if_neg hid]
    dsimp only
    by_cases hexp : s.Expires = 0
    · obtain ⟨n, hn⟩ := hparse hexp
      rw [if_pos hexp]
      unfold Store.setupExpiration
      rw [hn]
      dsimp only
      simp [hd]
    · rw [if_neg hexp]
      simp [hd]

/-- C6 (amended): `Store()` on a nil payload performs no cache command and
persists nothing, but it is not a silent no-op: it returns the "No session
data to store" error, and it may first regenerate an unset ID and stamp an
unset expiry, so those fields are not left unchanged. -/
theorem C6_store_nil_payload (env : Env) (w : World) (s : Store)
    (hd : s.Data = none)
    (hrand : s.ID.length = 0 → env.randErr w.randCtr = none)
    (hparse : s.Expires = 0 → ∃ n, ParseUint0 s.config.DefaultExpiration = Except.ok n) :
    (Store.store env w s).1 = some (.msg (strBytes "No session data to store")) ∧
      (Store.store env w s).2.1.cache = w.cache ∧
      (Store.store env w s).2.1.trace = w.trace ∧
      (Store.store env w s).2.2.Data = none := by
  have hv := validateSession_nil_data env w s hd hrand hparse
  unfold Store.store
  rcases hve : Store.validateSession env w s with ⟨r1, w2, s2⟩
  rw [hve] at hv
  obtain ⟨h1, h2, h3, h4⟩ := hv
  dsimp only at h1 h2 h3 h4
  subst h1
  dsimp only
  exact ⟨rfl, h2, h3, h4⟩

/-- C6 witness: the amended theorem on the freshly constructed store. -/
theorem C6_witness :
    (Store.store env0 w0 s0).1 = some (.msg (strBytes "No session data to store")) ∧
      (Store.store env0 w0 s0).2.1.cache = w0.cache ∧
      (Store.store env0 w0 s0).2.1.trace = w0.trace ∧
      (Store.store env0 w0 s0).2.2.Data = none :=
  C6_store_nil_payload env0 w0 s0 rfl (fun _ => rfl) (fun _ => ⟨60, rfl⟩)

/-- C6 counterexample: `Store()` on the fresh store (nil payload, unset ID,
zero expiry) returns an error — not "no error" — and mutates both the ID and
the expiry on the way, refuting "ID and Expires are left unchanged". -/
theorem C6_counterexample :
    (Store.store env0 w0 s0).1 ≠ none ∧
      (Store.store env0 w0 s0).2.2.ID ≠ s0.ID ∧
      (Store.store env0 w0 s0).2.2.Expires ≠ s0.Expires := by
  refine ⟨by decide, by decide, by decide⟩

/-- C7 (confirmed): a `Store()` call with a non-nil payload, unset ID, zero
expiry and a parsable default expiration `n` succeeds and, on return, the ID
is a fresh non-empty 28-byte token, `Expires = now + n`, the payload carries
`last_access = now`, and the cache holds under the new ID exactly the
base64-wrapped msgpack encoding of the stamped payload. -/
theorem C7_fresh_store (env : Env) (w : World) (s : Store) (m : SessionMap) (n : Nat)
    (hd : s.Data = some m) (hid : s.ID = []) (hexp : s.Expires = 0)
    (hn : ParseUint0 s.config.DefaultExpiration = Except.ok n)
    (hrandE : env.randErr w.randCtr = none)
    (hrb : (env.randBytes w.randCtr).length = idOctets)
    (hset : env.setErr (EncodeBase64 (env.randBytes w.randCtr)) = none)
    (hnow : env.now < 2 ^ 64) (hsum : env.now + n < 2 ^ 64) :
    Store.store env w s = (none,
      { cache := alSet w.cache (EncodeBase64 (env.randBytes w.randCtr))
          (EncodeBase64 (EncodeMsgPack (some (alSet m (strBytes "last_access") (.u64 env.now))))),
        randCtr := w.randCtr + 1,
        trace := w.trace ++ [CacheOp.set (EncodeBase64 (env.randBytes w.randCtr))
          (EncodeBase64 (EncodeMsgPack (some (alSet m (strBytes "last_access") (.u64 env.now)))))] },
      { s with
          ID := EncodeBase64 (env.randBytes w.randCtr)
          Expires := env.now + n
          Data := some (alSet m (strBytes "last_access") (.u64 env.now)) }) ∧
    (EncodeBase64 (env.randBytes w.randCtr)).length = 28 ∧
    alLookup (alSet w.cache (EncodeBase64 (env.randBytes w.randCtr))
        (EncodeBase64 (EncodeMsgPack (some (alSet m (strBytes "last_access") (.u64 env.now))))))
      (EncodeBase64 (env.randBytes w.randCtr)) =
      some (EncodeBase64 (EncodeMsgPack (some (alSet m (strBytes "last_access") (.u64 env.now))))) := by
  have hmod : env.now % 2 ^ 64 = env.now := Nat.mod_eq_of_lt hnow
  have hmod2 : (env.now + n) % 2 ^ 64 = env.now + n := Nat.mod_eq_of_lt hsum
  refine ⟨?_, by rw [EncodeBase64_length, hrb]; rfl, alLookup_alSet_self _ _ _⟩
  unfold Store.store Store.validateSession Store.regenerateID Store.setupExpiration
    Store.encodeSessionData Store.setSession setSessionData
  rw [if_pos (by rw [hid]; rfl), hrandE]
  dsimp only
  rw [if_pos (show ({ s with ID := EncodeBase64 (env.randBytes w.randCtr) } : Store).Expires = 0
    from hexp), hn]
  dsimp only
  rw [show ({ s with
      ID := EncodeBase64 (env.randBytes w.randCtr)
      Expires := (env.now % 2 ^ 64 + n) % 2 ^ 64 } : Store).Data = some m from hd]
  dsimp only
  rw [hmod, hmod2, hset]

/-- Store fixture for the fresh-store scenario: payload `{"k": "v"}`, unset
ID, zero expiry. -/
def sKV : Store :=
  { ID := [], Expires := 0, Data := some [(strBytes "k", .str (strBytes "v"))], config := cfg0 }

/-- C7 witness: the fresh-store theorem on `{"k": "v"}` with default
expiration 60 under `env0`. -/
theorem C7_witness :
    Store.store env0 w0 sKV = (none,
      { cache := alSet w0.cache (EncodeBase64 (env0.randBytes w0.randCtr))
          (EncodeBase64 (EncodeMsgPack (some (alSet [(strBytes "k", .str (strBytes "v"))]
            (strBytes "last_access") (.u64 env0.now))))),
        randCtr := w0.randCtr + 1,
        trace := w0.trace ++ [CacheOp.set (EncodeBase64 (env0.randBytes w0.randCtr))
          (EncodeBase64 (EncodeMsgPack (some (alSet [(strBytes "k", .str (strBytes "v"))]
            (strBytes "last_access") (.u64 env0.now)))))] },
      { sKV with
          ID := EncodeBase64 (env0.randBytes w0.randCtr)
          Expires := env0.now + 60
          Data := some (alSet [(strBytes "k", .str (strBytes "v"))]
            (strBytes "last_access") (.u64 env0.now)) }) ∧
    (EncodeBase64 (env0.randBytes w0.randCtr)).length = 28 ∧
    alLookup (alSet w0.cache (EncodeBase64 (env0.randBytes w0.randCtr))
        (EncodeBase64 (EncodeMsgPack (some (alSet [(strBytes "k", .str (strBytes "v"))]
          (strBytes "last_access") (.u64 env0.now))))))
      (EncodeBase64 (env0.randBytes w0.randCtr)) =
      some (EncodeBase64 (EncodeMsgPack (some (alSet [(strBytes "k", .str (strBytes "v"))]
        (strBytes "last_access") (.u64 env0.now))))) :=
  C7_fresh_store env0 w0 sKV [(strBytes "k", .str (strBytes "v"))] 60
    rfl rfl rfl rfl rfl (by decide) rfl (by decide) (by decide)

/-- C8 (confirmed): for every well-formed payload mapping, the structured
decode of the structured encode returns it exactly, and the equality still
holds through the base64 text-wrap stage: `decodeSession` applied to the
output of `encodeSessionData` recovers the payload. -/
theorem C8_roundtrip (m : SessionMap) (h1 : entriesWF m = true) (h2 : m.length < 2 ^ 32) :
    DecodeMsgPack (EncodeMsgPack (some m)) = .ok (some m) ∧
      (∀ s : Store, s.Data = some m →
        Store.decodeSession (Store.encodeSessionData s) = .ok (some m)) := by
  have hmp := DecodeMsgPack_EncodeMsgPack m h1 h2
  refine ⟨hmp, ?_⟩
  intro s hs
  unfold Store.decodeSession Store.encodeSessionData
  rw [hs]
  have hbytes : ∀ b ∈ EncodeMsgPack (some m), b < 256 := by
    intro b hb
    exact bytes_lt_both.1 (.map m)
      (by simp only [valWF, Bool.and_eq_true, decide_eq_true_eq]; exact ⟨h2, h1⟩) b hb
  rw [DecodeBase64_EncodeBase64 _ hbytes]
  dsimp only
  rw [hmp]

/-- Payload fixture for the round-trip witness. -/
def m0 : SessionMap := [(strBytes "k", .str (strBytes "v")), (strBytes "num", .u32 7)]

/-- C8 witness: the round trip on a concrete two-entry payload. -/
theorem C8_witness :
    DecodeMsgPack (EncodeMsgPack (some m0)) = .ok (some m0) ∧
      Store.decodeSession (Store.encodeSessionData { s0 with Data := some m0 }) = .ok (some m0) :=
  ⟨(C8_roundtrip m0 (by decide) (by decide)).1,
    (C8_roundtrip m0 (by decide) (by decide)).2 { s0 with Data := some m0 } rfl⟩

/-- C4 (amended): a loaded `uint32` expiry at or before now nils the payload
but `Load` surfaces the "Store has expired" error rather than a nil error; a
zero expiry is stamped fresh (`now + n`, with `last_access` updated) when the
default expiration parses; a future expiry is accepted as-is. -/
theorem C4_validateExpiration (env : Env) (s : Store) (m : SessionMap) (e : Nat)
    (hd : s.Data = some m)
    (he : alLookup m (strBytes "expires") = some (.u32 e))
    (hlt : e < 2 ^ 32) :
    (e ≠ 0 → e ≤ env.now % 2 ^ 64 →
      Store.validateExpiration env s =
        VOut.err (.msg (strBytes "Store has expired")) { s with Expires := e, Data := none }) ∧
    (∀ n : Nat, e = 0 → ParseUint0 s.config.DefaultExpiration = Except.ok n → 0 < n →
      env.now % 2 ^ 64 + n < 2 ^ 64 →
      Store.validateExpiration env s =
        VOut.ok { s with
          Expires := env.now % 2 ^ 64 + n
          Data := some (alSet m (strBytes "last_access") (.u64 (env.now % 2 ^ 64))) }) ∧
    (env.now % 2 ^ 64 < e → Store.validateExpiration env s = VOut.ok { s with Expires := e }) := by
  have hee : e % 2 ^ 32 = e := Nat.mod_eq_of_lt hlt
  refine ⟨?_, ?_, ?_⟩
  · intro hne hle
    unfold Store.validateExpiration
    rw [hd]
    simp only [Option.getD_some, he]
    dsimp only
    rw [hee, if_neg hne, if_pos hle]
  · intro n hz hp hpos hov
    subst hz
    unfold Store.validateExpiration
    rw [hd]
    simp only [Option.getD_some, he]
    dsimp only
    rw [if_pos (Nat.zero_mod (2 ^ 32))]
    unfold Store.setupExpiration
    rw [hp]
    dsimp only
    have h1 : (env.now % 2 ^ 64 + n) % 2 ^ 64 = env.now % 2 ^ 64 + n := Nat.mod_eq_of_lt hov
    rw [h1]
    rw [if_neg (show ¬ env.now % 2 ^ 64 + n ≤ env.now % 2 ^ 64 by omega)]
  · intro hgt
    unfold Store.validateExpiration
    rw [hd]
    simp only [Option.getD_some, he]
    dsimp only
    rw [hee, if_neg (show ¬ e = 0 by omega)]
    dsimp only
    rw [if_neg (show ¬ e ≤ env.now % 2 ^ 64 by omega)]

/-- Store fixture carrying an already-expired payload (`expires` = 940,
clock at 1000). -/
def sExpired : Store := { s0 with Data := some [(strBytes "expires", .u32 940)] }

/-- C4 witness: the lapsed branch of the amended theorem at `expires` 940,
now 1000. -/
theorem C4_witness :
    Store.validateExpiration env0 sExpired =
      VOut.err (.msg (strBytes "Store has expired")) { sExpired with Expires := 940, Data := none } :=
  (C4_validateExpiration env0 sExpired [(strBytes "expires", .u32 940)] 940
    rfl rfl (by decide)).1 (by decide) (by decide)

/-- C4 counterexample: a well-formed cookie whose cached payload has
`expires` = 940 under a clock at 1000 makes `Load` return the "Store has
expired" error — not the claimed nil error — with the payload nilled. -/
theorem C4_counterexample :
    (Store.load env0 wExpired s0 cookie0).1 = .err (.msg (strBytes "Store has expired")) ∧
      (Store.load env0 wExpired s0 cookie0).1 ≠ LoadRes.ok ∧
      (Store.load env0 wExpired s0 cookie0).2.2.Data = none :=
  ⟨by decide, by decide, by rfl⟩

/-- Environment fixture whose transport fails every cache get. -/
def envGetFail : Env := { env0 with getErr := fun _ => some (strBytes "connection refused") }

/-- C3 (amended): for a cookie that validates, every error of the cache get
step — the "not found" nil reply included — is a hard failure propagated
unmodified out of `Load`; the miss is not special-cased into a nil-error
empty session. -/
theorem C3_cache_get_errors (env : Env) (w : World) (s : Store) (c : GoStr)
    (hlen : cookieValueLength ≤ c.length)
    (hsig : c.drop signatureStart =
      Store.generateSignature env { s with ID := c.take signatureStart }) :
    (∀ m2, env.getErr (c.take signatureStart) = some m2 →
      (Store.load env w s c).1 = .err (.redis m2)) ∧
    (env.getErr (c.take signatureStart) = none →
      alLookup w.cache (c.take signatureStart) = none →
      (Store.load env w s c).1 = .err GoErr.redisNil) := by
  constructor
  · intro m2 hget
    unfold Store.load Store.validateSessionID
    rw [if_neg (by omega)]
    dsimp only
    unfold Store.extractAndValidateSessionIDParts
    rw [if_neg (not_not_intro hsig)]
    unfold Store.getStoredSession getSessionData
    dsimp only
    rw [hget]
  · intro hget hlook
    unfold Store.load Store.validateSessionID
    rw [if_neg (by omega)]
    dsimp only
    unfold Store.extractAndValidateSessionIDParts
    rw [if_neg (not_not_intro hsig)]
    unfold Store.getStoredSession getSessionData
    dsimp only
    rw [hget, hlook]

/-- C3 witness: both halves of the amended theorem — a failing transport and
a plain cache miss — at the concrete validated cookie. -/
theorem C3_witness :
    (Store.load envGetFail w0 s0 cookie0).1 = .err (.redis (strBytes "connection refused")) ∧
      (Store.load env0 w0 s0 cookie0).1 = .err GoErr.redisNil :=
  ⟨(C3_cache_get_errors envGetFail w0 s0 cookie0 (by decide) (by decide)).1
      (strBytes "connection refused") rfl,
    (C3_cache_get_errors env0 w0 s0 cookie0 (by decide) (by decide)).2 rfl rfl⟩

/-- C3 counterexample: a well-formed, correctly signed cookie over an empty
cache: the get reports "not found" and `Load` returns that nil-reply error —
not the claimed empty payload with nil error. -/
theorem C3_counterexample :
    (Store.load env0 w0 s0 cookie0).1 = .err GoErr.redisNil ∧
      (Store.load env0 w0 s0 cookie0).1 ≠ LoadRes.ok :=
  ⟨by decide, by decide⟩

/-- C2 (amended): an invalid cookie resets the session but `Load` does not
return success.  A short cookie value (< 55 bytes) nils the payload — when
the internal delete succeeds — and returns the length-validation error.  A
long-enough cookie with a signature mismatch resets and proceeds under a
fresh random ID: with the fresh ID absent from the cache, `Load` surfaces
the nil-reply error.  Neither path crashes. -/
theorem C2_invalid_cookie (env : Env) (w : World) (s : Store) (c : GoStr) :
    (c.length < cookieValueLength → env.delErr s.ID = none →
      (Store.load env w s c).1 =
        .err (.msg (strBytes "Cookie signature is less than the desired cookie length")) ∧
      (Store.load env w s c).2.2.Data = none) ∧
    (cookieValueLength ≤ c.length →
      c.drop signatureStart ≠
        Store.generateSignature env { s with ID := c.take signatureStart } →
      env.delErr (c.take signatureStart) = none →
      env.randErr w.randCtr = none →
      env.getErr (EncodeBase64 (env.randBytes w.randCtr)) = none →
      alLookup (alErase w.cache (c.take signatureStart))
        (EncodeBase64 (env.randBytes w.randCtr)) = none →
      (Store.load env w s c).1 = .err GoErr.redisNil ∧
      (Store.load env w s c).2.2.Data = none) := by
  constructor
  · intro hlen hdel
    unfold Store.load Store.validateSessionID Store.clear Store.delete deleteSessionData
      Store.regenerateID
    rw [if_pos hlen]
    cases hr : env.randErr w.randCtr <;> simp [hdel, hr]
  · intro hlen hsig hdel hrand hget hlook
    unfold Store.load Store.validateSessionID Store.extractAndValidateSessionIDParts
      Store.clear Store.delete deleteSessionData Store.regenerateID
      Store.getStoredSession getSessionData
    rw [if_neg (by omega)]
    dsimp only
    rw [if_pos hsig]
    simp only [hdel, hrand, hget, hlook]
    exact ⟨trivial, trivial⟩

/-- A 55-byte cookie whose signature part does not match the recomputed
signature under `env0`. -/
def badCookie : GoStr := List.replicate 28 65 ++ List.replicate 27 66

/-- C2 witness: both halves of the amended theorem — the empty cookie and a
well-sized cookie with a forged signature. -/
theorem C2_witness :
    ((Store.load env0 w0 s0 []).1 =
        .err (.msg (strBytes "Cookie signature is less than the desired cookie length")) ∧
      (Store.load env0 w0 s0 []).2.2.Data = none) ∧
    ((Store.load env0 w0 s0 badCookie).1 = .err GoErr.redisNil ∧
      (Store.load env0 w0 s0 badCookie).2.2.Data = none) :=
  ⟨(C2_invalid_cookie env0 w0 s0 []).1 (by decide) rfl,
    (C2_invalid_cookie env0 w0 s0 badCookie).2 (by decide) (by decide) rfl rfl rfl (by decide)⟩

/-- C2 counterexample: the empty cookie value is shorter than 55 bytes, and
`Load` returns the validation error — not the claimed success with nil
error. -/
theorem C2_counterexample :
    (Store.load env0 w0 s0 []).1 =
        .err (.msg (strBytes "Cookie signature is less than the desired cookie length")) ∧
      (Store.load env0 w0 s0 []).1 ≠ LoadRes.ok :=
  ⟨by decide, by decide⟩
